import Mathlib

/-!
Verification development for the token-importance annotation pipeline
(`extract_questions.py` — Selector, `calculate_weights.py` — Annotator,
`convert_to_csv.py` — Flattener).

The Python sources are shallowly embedded below: pure string processing is
modelled on `List Char`, Python's `json.loads` is modelled by a fuelled
recursive-descent parser over a JSON value type (numbers are idealised as
rationals; the non-standard constants `NaN`/`Infinity` accepted by Python and
surrogate-pair combination in `\u` escapes are not modelled — no claim
touches them), and the Annotator's batch loop is modelled as a recursion
that also records an event trace (oracle calls, sleeps, the single save).
-/

/-- The six whitespace characters stripped by Python's `str.strip()`. -/
def isPySpace (c : Char) : Bool :=
  c == ' ' || c == '\t' || c == '\n' || c == '\r' || c == '\x0b' || c == '\x0c'

/-- Model of Python `str.strip()`. -/
def pythonStrip (s : String) : String :=
  ⟨((s.data.dropWhile isPySpace).reverse.dropWhile isPySpace).reverse⟩

/-- `leadMatches p l` is true when `p` is an initial segment of `l`. -/
def leadMatches : List Char → List Char → Bool
  | [], _ => true
  | _ :: _, [] => false
  | p :: ps, c :: cs => p == c && leadMatches ps cs

/-- Model of Python `str.startswith`. -/
def strStartsWith (s pre : String) : Bool := leadMatches pre.data s.data

/-- Index of the first occurrence of `c` in `l` (Python `str.find`, `none` for -1). -/
def idxOfFirst (c : Char) : List Char → Option Nat
  | [] => none
  | x :: xs => if x == c then some 0 else (idxOfFirst c xs).map (· + 1)

/-- Index of the last occurrence of `c` in `l` (Python `str.rfind`, `none` for -1). -/
def idxOfLast (c : Char) (l : List Char) : Option Nat :=
  (idxOfFirst c l.reverse).map (fun i => l.length - 1 - i)

/-- Model of `response_text[response_text.find('\x7b') : response_text.rfind('\x7d') + 1]`
(`calculate_weights.py` lines 172-174), including Python's slice semantics when an
index is absent: `find` yields -1 (a start of -1 denotes the last position) and
`rfind + 1` yields 0. -/
def braceSlice (s : String) : String :=
  let l := s.data
  let start : Nat := match idxOfFirst '\x7b' l with
    | some i => i
    | none => l.length - 1
  let stop : Nat := match idxOfLast '\x7d' l with
    | some j => j + 1
    | none => 0
  ⟨(l.drop start).take (stop - start)⟩

/-! ## JSON values and a model of `json.loads` -/

/-- JSON values as produced by Python's `json.loads`; numbers are idealised as
rationals (Python distinguishes int/float, which no claim depends on). -/
inductive JVal where
  | null : JVal
  | bool : Bool → JVal
  | num : ℚ → JVal
  | str : String → JVal
  | arr : List JVal → JVal
  | obj : List (String × JVal) → JVal

/-- The four JSON whitespace characters. -/
def isJsonWs (c : Char) : Bool := c == ' ' || c == '\t' || c == '\n' || c == '\r'

def skipWs (l : List Char) : List Char := l.dropWhile isJsonWs

/-- Value of a hexadecimal digit. -/
def hexVal (c : Char) : Option Nat :=
  if 48 ≤ c.toNat ∧ c.toNat ≤ 57 then some (c.toNat - 48)
  else if 97 ≤ c.toNat ∧ c.toNat ≤ 102 then some (c.toNat - 87)
  else if 65 ≤ c.toNat ∧ c.toNat ≤ 70 then some (c.toNat - 55)
  else none

/-- Parse the body of a JSON string after the opening quote: returns the decoded
characters and the remainder after the closing quote.  Raw control characters are
rejected (Python `json.loads` default `strict=True`). -/
def parseJStr : List Char → Option (List Char × List Char)
  | [] => none
  | '"' :: rest => some ([], rest)
  | '\\' :: rest =>
    match rest with
    | '"' :: r => (parseJStr r).map (fun p => ('"' :: p.1, p.2))
    | '\\' :: r => (parseJStr r).map (fun p => ('\\' :: p.1, p.2))
    | '/' :: r => (parseJStr r).map (fun p => ('/' :: p.1, p.2))
    | 'b' :: r => (parseJStr r).map (fun p => ('\x08' :: p.1, p.2))
    | 'f' :: r => (parseJStr r).map (fun p => ('\x0c' :: p.1, p.2))
    | 'n' :: r => (parseJStr r).map (fun p => ('\n' :: p.1, p.2))
    | 'r' :: r => (parseJStr r).map (fun p => ('\r' :: p.1, p.2))
    | 't' :: r => (parseJStr r).map (fun p => ('\t' :: p.1, p.2))
    | 'u' :: h1 :: h2 :: h3 :: h4 :: r =>
      match hexVal h1, hexVal h2, hexVal h3, hexVal h4 with
      | some a, some b, some c, some d =>
        (parseJStr r).map (fun p => (Char.ofNat (((a * 16 + b) * 16 + c) * 16 + d) :: p.1, p.2))
      | _, _, _, _ => none
    | _ => none
  | c :: rest =>
    if c.toNat < 32 then none
    else (parseJStr rest).map (fun p => (c :: p.1, p.2))

/-- Longest initial run of decimal digits, and the rest. -/
def digitsSpan : List Char → List Char × List Char
  | [] => ([], [])
  | c :: r =>
    if '0' ≤ c ∧ c ≤ '9' then
      let p := digitsSpan r
      (c :: p.1, p.2)
    else ([], c :: r)

def digitsToNat (l : List Char) : Nat :=
  l.foldl (fun acc c => acc * 10 + (c.toNat - 48)) 0

/-- Powers of ten (spelled out so kernel reduction stays elementary). -/
def pow10 : Nat → Nat
  | 0 => 1
  | n + 1 => 10 * pow10 n

/-- Optional fraction part `.ddd` of a JSON number: its digits (at least one
digit required after the point). -/
def parseFracDigits : List Char → Option (List Char × List Char)
  | '.' :: r =>
    let p := digitsSpan r
    if p.1 = [] then none else some (p.1, p.2)
  | l => some ([], l)

/-- Optional exponent part `e±ddd` of a JSON number: (negative?, magnitude, rest). -/
def parseExp : List Char → Option (Bool × Nat × List Char)
  | c :: r =>
    if c = 'e' ∨ c = 'E' then
      let sr : Bool × List Char := match r with
        | '+' :: rr => (false, rr)
        | '-' :: rr => (true, rr)
        | _ => (false, r)
      let p := digitsSpan sr.2
      if p.1 = [] then none else some (sr.1, digitsToNat p.1, p.2)
    else some (false, 0, c :: r)
  | [] => some (false, 0, [])

/-- JSON number grammar: `-? int frac? exp?` with no leading zeros in `int`.
The value is assembled with integer arithmetic and one `mkRat`, exactly
`±(int.frac) × 10^(±exp)`. -/
def parseNumber (l : List Char) : Option (ℚ × List Char) :=
  let sl : Bool × List Char := match l with
    | '-' :: r => (true, r)
    | _ => (false, l)
  let ip := digitsSpan sl.2
  if ip.1 = [] then none
  else if 1 < ip.1.length ∧ ip.1.head? = some '0' then none
  else
    match parseFracDigits ip.2 with
    | none => none
    | some (fd, l3) =>
      match parseExp l3 with
      | none => none
      | some (eneg, emag, l4) =>
        let mant : Nat := digitsToNat ip.1 * pow10 fd.length + digitsToNat fd
        let sMant : Int := if sl.1 then -(mant : Int) else (mant : Int)
        let q : ℚ :=
          if eneg then mkRat sMant (pow10 fd.length * pow10 emag)
          else mkRat (sMant * (pow10 emag : Int)) (pow10 fd.length)
        some (q, l4)

mutual

/-- Fuelled recursive-descent parser for one JSON value (leading whitespace allowed). -/
def parseValue : Nat → List Char → Option (JVal × List Char)
  | 0, _ => none
  | fuel + 1, l =>
    match skipWs l with
    | '\x7b' :: rest =>
      (match skipWs rest with
       | '\x7d' :: r2 => some (JVal.obj [], r2)
       | r1 => (parseMembers fuel r1).map (fun p => (JVal.obj p.1, p.2)))
    | '[' :: rest =>
      (match skipWs rest with
       | ']' :: r2 => some (JVal.arr [], r2)
       | r1 => (parseItems fuel r1).map (fun p => (JVal.arr p.1, p.2)))
    | '"' :: rest => (parseJStr rest).map (fun p => (JVal.str ⟨p.1⟩, p.2))
    | 't' :: 'r' :: 'u' :: 'e' :: rest => some (JVal.bool true, rest)
    | 'f' :: 'a' :: 'l' :: 's' :: 'e' :: rest => some (JVal.bool false, rest)
    | 'n' :: 'u' :: 'l' :: 'l' :: rest => some (JVal.null, rest)
    | l' => (parseNumber l').map (fun p => (JVal.num p.1, p.2))

/-- Members of a non-empty JSON object, starting at the first key (whitespace skipped). -/
def parseMembers : Nat → List Char → Option (List (String × JVal) × List Char)
  | 0, _ => none
  | fuel + 1, l =>
    match l with
    | '"' :: rest =>
      (match parseJStr rest with
       | none => none
       | some (key, r1) =>
         match skipWs r1 with
         | ':' :: r2 =>
           (match parseValue fuel r2 with
            | none => none
            | some (v, r3) =>
              match skipWs r3 with
              | ',' :: r4 =>
                (match parseMembers fuel (skipWs r4) with
                 | none => none
                 | some (ms, r5) => some ((⟨key⟩, v) :: ms, r5))
              | '\x7d' :: r4 => some ([(⟨key⟩, v)], r4)
              | _ => none)
         | _ => none)
    | _ => none

/-- Items of a non-empty JSON array. -/
def parseItems : Nat → List Char → Option (List JVal × List Char)
  | 0, _ => none
  | fuel + 1, l =>
    match parseValue fuel l with
    | none => none
    | some (v, r1) =>
      match skipWs r1 with
      | ',' :: r2 => (parseItems fuel r2).map (fun p => (v :: p.1, p.2))
      | ']' :: r2 => some ([v], r2)
      | _ => none

end

/-- Model of Python `json.loads`: one JSON value, then only trailing whitespace. -/
def json_loads (s : String) : Option JVal :=
  match parseValue (s.data.length + 1) s.data with
  | some (v, rest) => if skipWs rest = [] then some v else none
  | none => none

/-- Python dict subscription `d[key]` on a parsed JSON value: `none` models the
`KeyError`/`TypeError` raised when the key is absent or the value is not an object.
For duplicate keys `json.loads` keeps the last binding, hence the reversed search. -/
def jsonGet (j : JVal) (key : String) : Option JVal :=
  match j with
  | JVal.obj kvs => (kvs.reverse.find? (fun p => p.fst == key)).map (fun p => p.snd)
  | _ => none

/-! ## Annotator (`calculate_weights.py`) -/

/-- One input record of the Annotator (an element of the Selector's JSON output).
The Python code reads these fields from a dict; the spec's data model fixes them. -/
structure QuizItem where
  data_id : Int
  question : String
  answer : String
  tokens : String
  token_count : Int
deriving DecidableEq

/-- The record assembled by `calculate_attention_weights` on success
(`calculate_weights.py` lines 186-196).  `attention_weights` and `total_weight`
are stored exactly as parsed — the code performs no validation of their shape. -/
structure AnnotatedResult where
  data_id : Int
  question : String
  answer : String
  tokens : String
  token_count : Int
  attention_weights : JVal
  total_weight : JVal
  model : String
  model_response : String

/-- The fenced-code tag tested by `response_text.startswith('```json')`. -/
def fenceTag : String := "```json"

/-- The JSON text submitted to `json.loads` (`calculate_weights.py` lines 170-176):
the whole stripped response, unless it starts with the tag, in which case the
substring from the first `\x7b` to the last `\x7d`. -/
def jsonContentOf (response_text : String) : String :=
  if strStartsWith response_text fenceTag then braceSlice response_text else response_text

/-- Model of `AttentionWeightCalculator.calculate_attention_weights`
(`calculate_weights.py` lines 132-203) applied to the oracle's raw response
content.  `none` models every rejection path: a `json.JSONDecodeError`, and the
`KeyError`/`TypeError` (caught by the enclosing `except`) when `token_weights`
or `total_weight` is absent or the parsed value is not an object. -/
def calculate_attention_weights (response_content : String) (quiz_item : QuizItem)
    (model : String) : Option AnnotatedResult :=
  let response_text := pythonStrip response_content
  match json_loads (jsonContentOf response_text) with
  | none => none
  | some weights_data =>
    match jsonGet weights_data "token_weights", jsonGet weights_data "total_weight" with
    | some tw, some tot =>
      some { data_id := quiz_item.data_id, question := quiz_item.question,
             answer := quiz_item.answer, tokens := quiz_item.tokens,
             token_count := quiz_item.token_count, attention_weights := tw,
             total_weight := tot, model := model, model_response := response_text }
    | _, _ => none

/-- Does the response survive the Annotator's parse (strip, optional fence slice,
`json.loads`)?  This is the condition named by the rejection claims. -/
def oracleParses (response_content : String) : Bool :=
  (json_loads (jsonContentOf (pythonStrip response_content))).isSome

/-- Full acceptance condition of the Annotator for one oracle response: the
(fence-stripped) text parses as JSON and subscription by `token_weights` and
`total_weight` both succeed. -/
def acceptsResponse (response_content : String) : Bool :=
  match json_loads (jsonContentOf (pythonStrip response_content)) with
  | none => false
  | some wd => (jsonGet wd "token_weights").isSome && (jsonGet wd "total_weight").isSome

/-- Observable events of the Annotator's batch loop
(`process_all_quiz_data`, `calculate_weights.py` lines 205-243). -/
inductive Event where
  | callRecord : Int → Event
  | sleep : Event
  | save : List AnnotatedResult → Event

/-- The batch loop of `process_all_quiz_data` (lines 225-236): `i` is the 1-based
position, `total` the batch size; each iteration calls the oracle and the
per-record calculation, appends the result when accepted, and sleeps exactly
when `i < total`.  Returns the event list and the accumulated results. -/
def processLoop (oracle : QuizItem → String) (model : String) (total : Nat) :
    Nat → List QuizItem → List Event × List AnnotatedResult
  | _, [] => ([], [])
  | i, item :: rest =>
    let res := calculate_attention_weights (oracle item) item model
    let p := processLoop oracle model total (i + 1) rest
    (Event.callRecord item.data_id :: ((if i < total then [Event.sleep] else []) ++ p.1),
     match res with
     | some r => r :: p.2
     | none => p.2)

/-- The batch output of `process_all_quiz_data`: the accepted records, in input
order, as passed to `_save_results` at the end of the loop. -/
def process_all_quiz_data (oracle : QuizItem → String) (model : String)
    (quiz_data : List QuizItem) : List AnnotatedResult :=
  (processLoop oracle model quiz_data.length 1 quiz_data).2

/-- The whole observable trace of one `process_all_quiz_data` run: the loop's
events followed by the single `_save_results` call (line 239). -/
def process_trace (oracle : QuizItem → String) (model : String)
    (quiz_data : List QuizItem) : List Event :=
  (processLoop oracle model quiz_data.length 1 quiz_data).1
    ++ [Event.save (process_all_quiz_data oracle model quiz_data)]

def isSleepEv : Event → Bool
  | Event.sleep => true
  | _ => false

def isSaveEv : Event → Bool
  | Event.save _ => true
  | _ => false

/-- An `AnnotatedResult` with the retained raw response text removed; used to
compare acceptance results that differ only in the audit field. -/
structure CoreResult where
  data_id : Int
  question : String
  answer : String
  tokens : String
  token_count : Int
  attention_weights : JVal
  total_weight : JVal
  model : String

def coreOf (r : AnnotatedResult) : CoreResult :=
  { data_id := r.data_id, question := r.question, answer := r.answer,
    tokens := r.tokens, token_count := r.token_count,
    attention_weights := r.attention_weights, total_weight := r.total_weight,
    model := r.model }

/-! ## Selector (`extract_questions.py`) -/

/-- A source-table row carrying the five required columns (the projection
`filtered_df[required_columns]` keeps exactly these). -/
structure SrcRow where
  data_id : Int
  question : String
  answer : String
  tokens : String
  token_count : Int
deriving DecidableEq

/-- The source table as read by `pd.read_csv`: its column-name list (what the
schema check consults) and its rows. -/
structure Frame where
  columns : List String
  rows : List SrcRow

/-- `required_columns` (`extract_questions.py` line 26). -/
def required_columns : List String :=
  ["data_id", "question", "answer", "tokens", "token_count"]

/-- `[col for col in required_columns if col not in df.columns]` (line 39). -/
def missingColumns (cols : List String) : List String :=
  required_columns.filter (fun c => !(cols.contains c))

/-- `df[df['data_id'].isin(target_data_ids)]` (line 49): filter, source order kept. -/
def filterByIds (rows : List SrcRow) (tids : List Int) : List SrcRow :=
  rows.filter (fun r => tids.contains r.data_id)

/-- Position of `x` in the category list `tids` (the categorical code a row's
`data_id` is ordered by after `pd.Categorical(..., categories=target_data_ids,
ordered=True)`); identifiers not in the list get a position past the end. -/
def posIn (tids : List Int) (x : Int) : Nat :=
  match tids with
  | [] => 0
  | t :: ts => if x = t then 0 else posIn ts x + 1

/-- Insert one row into a list sorted by ascending key, after equal keys. -/
def insertOn (key : SrcRow → Nat) (r : SrcRow) : List SrcRow → List SrcRow
  | [] => [r]
  | x :: xs => if key x ≤ key r then x :: insertOn key r xs else r :: x :: xs

/-- Stable insertion sort by key: model of `filtered_df.sort_values('data_id')`
on the categorical codes (line 59).  On the duplicate-free keys produced under
the data model's unique-identifier assumption every correct sort agrees with it. -/
def sortOn (key : SrcRow → Nat) : List SrcRow → List SrcRow
  | [] => []
  | x :: xs => insertOn key x (sortOn key xs)

/-- The selected, reordered rows (lines 49-67): filter by membership in
`target_data_ids`, then sort by the identifier's position in that list. -/
def extract_select (rows : List SrcRow) (tids : List Int) : List SrcRow :=
  sortOn (fun r => posIn tids r.data_id) (filterByIds rows tids)

/-- `missing_ids` (lines 62-63): requested identifiers absent from the filtered
rows, in request order. -/
def missing_ids (rows : List SrcRow) (tids : List Int) : List Int :=
  tids.filter (fun id => !(((filterByIds rows tids).map (fun r => r.data_id)).contains id))

/-- Observable outcome of one `extract_csv_data` invocation.  `output` is the
row list written to the output file (`none` when nothing is written);
`uncaughtExit` records whether the invocation ends by `sys.exit` or an uncaught
exception (a non-zero process status) — the function body is wrapped in
`try/except` clauses that catch every exception and print a diagnostic, so it
always terminates normally. -/
structure ExtractResult where
  output : Option (List SrcRow)
  warnedMissingIds : List Int
  errorMsg : Option String
  uncaughtExit : Bool
deriving DecidableEq

/-- Rendering of a Python list of strings, as interpolated into the
`ValueError` message for missing columns. -/
def pyStrListRepr (l : List String) : String :=
  "[" ++ String.intercalate ", " (l.map (fun s => "'" ++ s ++ "'")) ++ "]"

/-- The printed diagnostic for the missing-column failure: the `ValueError`
text of line 41 as caught and printed by line 99-100. -/
def missingColsMsg (missing : List String) : String :=
  "エラーが発生しました: 必要な列が見つかりません: " ++ pyStrListRepr missing

/-- Model of `extract_csv_data` (`extract_questions.py` lines 15-100).
Branches, in source order: the schema check raises `ValueError` when a required
column is missing (caught by the generic handler — diagnostic printed, no file
written, normal return); an empty or omitted `target_data_ids` is falsy, so all
rows pass through;  otherwise the rows are filtered and reordered —
`pd.Categorical` raises `ValueError: Categorical categories must be unique`
when the requested list has duplicates, again caught by the generic handler. -/
def extract_csv_data (df : Frame) (target_data_ids : Option (List Int)) : ExtractResult :=
  let missing := missingColumns df.columns
  if missing ≠ [] then
    { output := none, warnedMissingIds := [], errorMsg := some (missingColsMsg missing),
      uncaughtExit := false }
  else
    match target_data_ids with
    | some (t :: ts) =>
      if (t :: ts).Nodup then
        { output := some (extract_select df.rows (t :: ts)),
          warnedMissingIds := missing_ids df.rows (t :: ts),
          errorMsg := none, uncaughtExit := false }
      else
        { output := none, warnedMissingIds := [],
          errorMsg := some "エラーが発生しました: Categorical categories must be unique",
          uncaughtExit := false }
    | _ =>
      { output := some df.rows, warnedMissingIds := [], errorMsg := none,
        uncaughtExit := false }

/-! ## Flattener (`convert_to_csv.py`) -/

/-- One entry of the Annotator's JSON output as consumed by `convert_to_csv`
(lines 47-59): the fields it reads, with `attention_weights` in the
`\x7btoken, weight\x7d` shape its inner loop expects. -/
structure WeightedToken where
  token : String
  weight : ℚ
deriving DecidableEq

structure FlatInput where
  data_id : Int
  question : String
  answer : String
  token_count : Int
  attention_weights : List WeightedToken
deriving DecidableEq

def decDigit : Nat → Char
  | 0 => '0' | 1 => '1' | 2 => '2' | 3 => '3' | 4 => '4'
  | 5 => '5' | 6 => '6' | 7 => '7' | 8 => '8' | 9 => '9'
  | _ => '0'

/-- Decimal digits of `n`, most significant first (`fuel`-bounded division). -/
def natToDecAux : Nat → Nat → List Char
  | 0, _ => []
  | fuel + 1, n =>
    if n < 10 then [decDigit n]
    else natToDecAux fuel (n / 10) ++ [decDigit (n % 10)]

def natToDec (n : Nat) : List Char := natToDecAux (n + 1) n

/-- `⌊q·10^6 + 1/2⌋` computed on the numerator/denominator representation with
floor division: the rounding step of the 6-decimal format. -/
def ratScaledRound6 (q : ℚ) : Int :=
  Int.fdiv (2 * q.num * 1000000 + q.den) (2 * q.den)

/-- Model of the Python format `f"\x7btoken_data['weight']:.6f\x7d"` (line 59) on the
idealised rational weight: the value scaled by 10^6 and rounded to the nearest
integer, rendered with six fractional digits.  (Python rounds the nearest
binary double half-to-even; the tie rule is irrelevant to every claim.) -/
def formatWeight6 (q : ℚ) : String :=
  let m : Int := ratScaledRound6 q
  let a := m.natAbs
  let fd := natToDec (a % 1000000)
  (if m < 0 then "-" else "")
    ++ ⟨natToDec (a / 1000000)⟩ ++ "."
    ++ ⟨List.replicate (6 - fd.length) '0' ++ fd⟩

/-- `"|".join(parts)`. -/
def joinPipe : List String → String
  | [] => ""
  | [s] => s
  | s :: rest => s ++ "|" ++ joinPipe rest

/-- `tokens_str = "|" + "|".join(tokens) + "|"` (line 62). -/
def tokensStr (item : FlatInput) : String :=
  "|" ++ joinPipe (item.attention_weights.map (fun t => t.token)) ++ "|"

/-- `weights_str = "|" + "|".join(weights) + "|"` (line 63). -/
def weightsStr (item : FlatInput) : String :=
  "|" ++ joinPipe (item.attention_weights.map (fun t => formatWeight6 t.weight)) ++ "|"

/-- The six cells of one output row (line 66). -/
def rowOf (item : FlatInput) : List String :=
  [toString item.data_id, item.question, item.answer,
   tokensStr item, weightsStr item, toString item.token_count]

/-- Does `csv.writer` (default dialect, QUOTE_MINIMAL) quote this field? -/
def needsQuote (s : String) : Bool :=
  s.data.any (fun c => c == ',' || c == '"' || c == '\r' || c == '\n')

def escapeQuotes : List Char → List Char
  | [] => []
  | '"' :: r => '"' :: '"' :: escapeQuotes r
  | c :: r => c :: escapeQuotes r

def csvField (s : String) : String :=
  if needsQuote s then "\"" ++ ⟨escapeQuotes s.data⟩ ++ "\"" else s

/-- One line written by `csv.writer.writerow` (default dialect: comma delimiter,
minimal double-quote quoting, CRLF line terminator; the file is opened with
`newline=''` so the terminator reaches the file verbatim). -/
def csvLine (row : List String) : String :=
  String.intercalate "," (row.map csvField) ++ "\r\n"

/-- The header row of line 45. -/
def headerRow : List String :=
  ["data_id", "question", "answer", "tokens", "weights", "token_count"]

/-- Model of `convert_to_csv` (`convert_to_csv.py` lines 19-67): the byte
content of the delimited file produced from the Annotator output `data`. -/
def convert_to_csv (data : List FlatInput) (with_header : Bool) : String :=
  (if with_header then csvLine headerRow else "")
    ++ String.join (data.map (fun item => csvLine (rowOf item)))

/-- `sample_row[i].count('|')` as used by `verify_format` (lines 119-120). -/
def pipeCount (s : String) : Nat := s.data.countP (fun c => c == '|')

/-- The delimiter-split segment count checked by `verify_format`:
`count('|') - 1` (lines 119-121). -/
def pipeSplitCount (s : String) : Nat := pipeCount s - 1

/-! ## Lemmas about the Annotator batch loop -/

theorem processLoop_snd (oracle : QuizItem → String) (model : String) (total : Nat)
    (i : Nat) (items : List QuizItem) :
    (processLoop oracle model total i items).2
      = items.filterMap (fun it => calculate_attention_weights (oracle it) it model) := by
  induction items generalizing i with
  | nil => rfl
  | cons item rest ih =>
    simp only [processLoop, List.filterMap_cons, ih (i + 1)]
    cases calculate_attention_weights (oracle item) item model <;> rfl

theorem process_all_eq_filterMap (oracle : QuizItem → String) (model : String)
    (items : List QuizItem) :
    process_all_quiz_data oracle model items
      = items.filterMap (fun it => calculate_attention_weights (oracle it) it model) :=
  processLoop_snd oracle model items.length 1 items

theorem calc_data_id {resp : String} {it : QuizItem} {model : String} {r : AnnotatedResult}
    (h : calculate_attention_weights resp it model = some r) : r.data_id = it.data_id := by
  simp only [calculate_attention_weights] at h
  split at h
  · exact absurd h (by simp)
  · split at h
    · rw [← Option.some.inj h]
    · exact absurd h (by simp)

theorem calc_none_of_parse_fail {resp : String} (h : oracleParses resp = false)
    (it : QuizItem) (model : String) :
    calculate_attention_weights resp it model = none := by
  unfold oracleParses at h
  unfold calculate_attention_weights
  cases hj : json_loads (jsonContentOf (pythonStrip resp)) with
  | none => simp [hj]
  | some v => rw [hj] at h; simp at h

theorem length_filterMap_of_all_some {α β : Type} (f : α → Option β) (l : List α)
    (h : ∀ a ∈ l, (f a).isSome) : (l.filterMap f).length = l.length := by
  induction l with
  | nil => rfl
  | cons x xs ih =>
    cases hx : f x with
    | none => exact absurd (h x (List.mem_cons_self x xs)) (by simp [hx])
    | some b =>
      rw [List.filterMap_cons_some hx]
      simp [ih (fun a ha => h a (List.mem_cons_of_mem _ ha))]

theorem length_filterMap_of_one_none {α β : Type} (f : α → Option β) :
    ∀ (l : List α) (k : Nat) (hk : k < l.length),
      f (l.get ⟨k, hk⟩) = none →
      (∀ (j : Nat) (hj : j < l.length), j ≠ k → (f (l.get ⟨j, hj⟩)).isSome) →
      (l.filterMap f).length = l.length - 1 := by
  intro l
  induction l with
  | nil => intro k hk; exact absurd hk (Nat.not_lt_zero k)
  | cons x xs ih =>
    intro k hk hfail hsucc
    cases k with
    | zero =>
      have hfail' : f x = none := hfail
      rw [List.filterMap_cons_none hfail']
      rw [length_filterMap_of_all_some f xs ?hall]
      · simp
      case hall =>
        intro a ha
        obtain ⟨⟨j, hj⟩, rfl⟩ := List.mem_iff_get.mp ha
        exact hsucc (j + 1) (by simpa using Nat.succ_lt_succ hj) (Nat.succ_ne_zero j)
    | succ k' =>
      have hk' : k' < xs.length := Nat.lt_of_succ_lt_succ hk
      have hfail' : f (xs.get ⟨k', hk'⟩) = none := hfail
      have hx : (f x).isSome := hsucc 0 (Nat.zero_lt_succ _) (by omega)
      cases hxv : f x with
      | none => rw [hxv] at hx; simp at hx
      | some b =>
        rw [List.filterMap_cons_some hxv]
        have := ih k' hk' hfail'
          (fun j hj hne => hsucc (j + 1) (by simpa using Nat.succ_lt_succ hj)
            (fun hc => hne (Nat.succ_injective hc)))
        simp only [List.length_cons, this]
        omega

/-- C1: if the oracle returns unparsable text for record `k` among `n` input
records and every other record succeeds, the Annotator's output batch has
exactly `n-1` annotated records, none carrying record `k`'s identifier; the
per-record failure never aborts processing of the remaining records. -/
theorem annotator_rejection_isolation (oracle : QuizItem → String) (model : String)
    (items : List QuizItem) (k : Nat) (hk : k < items.length)
    (hid : (items.map (fun it => it.data_id)).Nodup)
    (hfail : oracleParses (oracle (items.get ⟨k, hk⟩)) = false)
    (hsucc : ∀ (j : Nat) (hj : j < items.length), j ≠ k →
      (calculate_attention_weights (oracle (items.get ⟨j, hj⟩)) (items.get ⟨j, hj⟩)
        model).isSome) :
    (process_all_quiz_data oracle model items).length = items.length - 1 ∧
    ∀ r ∈ process_all_quiz_data oracle model items,
      r.data_id ≠ (items.get ⟨k, hk⟩).data_id := by
  have hcalc : calculate_attention_weights (oracle (items.get ⟨k, hk⟩))
      (items.get ⟨k, hk⟩) model = none :=
    calc_none_of_parse_fail hfail _ _
  constructor
  · rw [process_all_eq_filterMap]
    exact length_filterMap_of_one_none _ items k hk hcalc hsucc
  · intro r hr heq
    rw [process_all_eq_filterMap] at hr
    obtain ⟨a, ha, hfa⟩ := List.mem_filterMap.mp hr
    obtain ⟨⟨j, hj⟩, rfl⟩ := List.mem_iff_get.mp ha
    have hda : r.data_id = (items.get ⟨j, hj⟩).data_id := calc_data_id hfa
    by_cases hjk : j = k
    · subst hjk
      rw [hcalc] at hfa
      exact Option.noConfusion hfa
    · have hmapj : (items.map (fun it => it.data_id)).get ⟨j, by simpa using hj⟩
          = (items.get ⟨j, hj⟩).data_id := List.get_map _
      have hmapk : (items.map (fun it => it.data_id)).get ⟨k, by simpa using hk⟩
          = (items.get ⟨k, hk⟩).data_id := List.get_map _
      have : (⟨j, by simpa using hj⟩ : Fin (items.map (fun it => it.data_id)).length)
          = ⟨k, by simpa using hk⟩ := by
        rw [← hid.get_inj_iff]
        rw [hmapj, hmapk, ← hda, heq]
      exact hjk (congrArg Fin.val this)

/-- C5: the Annotator's batch output is an order-preserving subsequence of the
input (on record identifiers), of length at most the input length. -/
theorem annotator_output_subsequence (oracle : QuizItem → String) (model : String)
    (items : List QuizItem) :
    List.Sublist ((process_all_quiz_data oracle model items).map (fun r => r.data_id))
      (items.map (fun it => it.data_id)) ∧
    (process_all_quiz_data oracle model items).length ≤ items.length := by
  have hsub : List.Sublist
      ((items.filterMap (fun it => calculate_attention_weights (oracle it) it model)).map
        (fun r => r.data_id))
      (items.map (fun it => it.data_id)) := by
    induction items with
    | nil => simp
    | cons x xs ih =>
      cases hx : calculate_attention_weights (oracle x) x model with
      | none =>
        simp only [List.filterMap_cons, hx, List.map_cons]
        exact ih.cons _
      | some r =>
        simp only [List.filterMap_cons, hx, List.map_cons]
        rw [calc_data_id hx]
        exact ih.cons₂ _
  constructor
  · rw [process_all_eq_filterMap]; exact hsub
  · have := hsub.length_le
    simpa [process_all_eq_filterMap] using this

/-- Witness for `annotator_rejection_isolation`: two records, the second one's
response is unparsable, output has one record and it is not record 2's. -/
theorem annotator_rejection_isolation_witness :
    (([⟨1, "Q1", "A1", "|a|", 1⟩, ⟨2, "Q2", "A2", "|b|", 1⟩] :
        List QuizItem).map (fun it => it.data_id)).Nodup ∧
    (process_all_quiz_data
        (fun it => if it.data_id = 1 then
          "\x7b\"token_weights\": [\x7b\"token\": \"a\", \"weight\": 1.0\x7d], \"total_weight\": 1.0\x7d"
          else "garbage")
        "gpt-4.1" [⟨1, "Q1", "A1", "|a|", 1⟩, ⟨2, "Q2", "A2", "|b|", 1⟩]).length = 1 ∧
    ∀ r ∈ process_all_quiz_data
        (fun it => if it.data_id = 1 then
          "\x7b\"token_weights\": [\x7b\"token\": \"a\", \"weight\": 1.0\x7d], \"total_weight\": 1.0\x7d"
          else "garbage")
        "gpt-4.1" [⟨1, "Q1", "A1", "|a|", 1⟩, ⟨2, "Q2", "A2", "|b|", 1⟩],
      r.data_id ≠ 2 := by
  refine ⟨by decide, ?_⟩
  exact annotator_rejection_isolation _ "gpt-4.1" _ 1 (by decide) (by decide) (by decide)
    (by decide)

theorem loopTrace_no_save (oracle : QuizItem → String) (model : String) (total : Nat)
    (items : List QuizItem) (i : Nat) :
    ∀ e ∈ (processLoop oracle model total i items).1, isSaveEv e = false := by
  induction items generalizing i with
  | nil => intro e he; simp [processLoop] at he
  | cons x xs ih =>
    intro e he
    simp only [processLoop, List.mem_cons, List.mem_append] at he
    rcases he with rfl | he2
    · rfl
    · rcases he2 with h1 | h2
      · by_cases hi : i < total
        · simp only [hi, if_true, List.mem_singleton] at h1
          subst h1; rfl
        · simp [hi] at h1
      · exact ih (i + 1) e h2

theorem loopTrace_sleep_count (oracle : QuizItem → String) (model : String) (total : Nat) :
    ∀ (items : List QuizItem) (i : Nat), i + items.length = total + 1 →
      ((processLoop oracle model total i items).1.countP isSleepEv) = items.length - 1 := by
  intro items
  induction items with
  | nil => intro i h; simp [processLoop]
  | cons x xs ih =>
    intro i h
    cases xs with
    | nil =>
      have hi : ¬ i < total := by simp at h; omega
      simp [processLoop, hi, List.countP_cons, isSleepEv]
    | cons y ys =>
      have hi : i < total := by simp at h; omega
      have hrec := ih (i + 1) (by simp at h ⊢; omega)
      simp only [processLoop] at hrec ⊢
      simp only [hi, if_true, List.countP_cons, List.countP_append] at hrec ⊢
      simp only [isSleepEv] at hrec ⊢
      simp only [List.length_cons] at hrec ⊢
      simp [List.countP_cons] at hrec ⊢
      omega

/-- C7: for a batch of `n` records, the delay wait occurs after each record
except the last (`n-1` sleeps in total), and the persisted output is written
exactly once, at the very end of the trace, after the whole batch. -/
theorem annotator_delay_and_single_save (oracle : QuizItem → String) (model : String)
    (items : List QuizItem) :
    (process_trace oracle model items).countP isSleepEv = items.length - 1 ∧
    (process_trace oracle model items).countP isSaveEv = 1 ∧
    (process_trace oracle model items).getLast?
      = some (Event.save (process_all_quiz_data oracle model items)) := by
  refine ⟨?_, ?_, ?_⟩
  · unfold process_trace
    rw [List.countP_append,
      loopTrace_sleep_count oracle model items.length items 1 (by omega)]
    simp [List.countP_cons, isSleepEv]
  · unfold process_trace
    rw [List.countP_append]
    rw [List.countP_eq_zero.mpr
      (fun e he h => by rw [loopTrace_no_save oracle model items.length items 1 e he] at h
                        exact Bool.noConfusion h)]
    simp [List.countP_cons, isSaveEv]
  · exact List.getLast?_concat _

/-- C9: the Flattener is deterministic and non-mutating — it is a pure function
of the Annotator output it reads, so two runs on the same data produce
byte-identical delimited files, in both the header and no-header variants. -/
theorem flattener_deterministic (d1 d2 : List FlatInput) (h : d1 = d2) :
    convert_to_csv d1 true = convert_to_csv d2 true ∧
    convert_to_csv d1 false = convert_to_csv d2 false := by
  subst h; exact ⟨rfl, rfl⟩

/-- Witness for `flattener_deterministic` at a concrete annotated record. -/
theorem flattener_deterministic_witness :
    ([(⟨1, "Q", "A", 1, [⟨"t", 1⟩]⟩ : FlatInput)] = [⟨1, "Q", "A", 1, [⟨"t", 1⟩]⟩]) ∧
    convert_to_csv [⟨1, "Q", "A", 1, [⟨"t", 1⟩]⟩] true
      = convert_to_csv [⟨1, "Q", "A", 1, [⟨"t", 1⟩]⟩] true ∧
    convert_to_csv [⟨1, "Q", "A", 1, [⟨"t", 1⟩]⟩] false
      = convert_to_csv [⟨1, "Q", "A", 1, [⟨"t", 1⟩]⟩] false :=
  ⟨rfl, flattener_deterministic _ _ rfl⟩

def c10resp : String :=
  "\x7b\"token_weights\": [\x7b\"token\": \"x\", \"weight\": 5.0\x7d], \"total_weight\": 7.0\x7d"

def c10item : QuizItem := ⟨42, "Q", "A", "|a|b|c|", 3⟩

/-- Number of entries of a parsed JSON array. -/
def jvalArrLen : JVal → Option Nat
  | JVal.arr l => some l.length
  | _ => none

/-- The rational carried by a parsed JSON number. -/
def jvalNum : JVal → Option ℚ
  | JVal.num q => some q
  | _ => none

/-- The `weight` numbers of a parsed `token_weights` array. -/
def jvalWeights : JVal → Option (List ℚ)
  | JVal.arr l => l.mapM (fun j => (jsonGet j "weight").bind jvalNum)
  | _ => none

/-- C10: the Annotator accepts a record exactly when the (fence-stripped)
response parses as JSON and subscription by `token_weights` and `total_weight`
succeeds; and a concrete response whose weight list has 1 entry against a
declared `token_count` of 3, with a weight of 5 (outside `[0,1]`) and a total
of 7 (far from 1), is still accepted — no count, range, or sum validation
happens on the accept path. -/
theorem annotator_accept_no_validation :
    (∀ (resp : String) (it : QuizItem) (model : String),
        (calculate_attention_weights resp it model).isSome = acceptsResponse resp) ∧
    (calculate_attention_weights c10resp c10item "gpt-4.1").isSome = true ∧
    (calculate_attention_weights c10resp c10item "gpt-4.1").map
        (fun r => jvalArrLen r.attention_weights) = some (some 1) ∧
    (calculate_attention_weights c10resp c10item "gpt-4.1").map
        (fun r => r.token_count) = some 3 ∧ (1 : Int) ≠ 3 ∧
    (calculate_attention_weights c10resp c10item "gpt-4.1").map
        (fun r => jvalWeights r.attention_weights) = some (some [5]) ∧
    ¬ ((5 : ℚ) ≤ 1) ∧
    (calculate_attention_weights c10resp c10item "gpt-4.1").map
        (fun r => jvalNum r.total_weight) = some (some 7) ∧ (7 : ℚ) ≠ 1 := by
  refine ⟨?_, by decide, by decide, by decide, by decide, by decide, by decide, by decide,
    by decide⟩
  intro resp it model
  simp only [calculate_attention_weights, acceptsResponse]
  cases hj : json_loads (jsonContentOf (pythonStrip resp)) with
  | none => rfl
  | some wd =>
    cases h1 : jsonGet wd "token_weights" with
    | none => simp [h1]
    | some tw =>
      cases h2 : jsonGet wd "total_weight" with
      | none => simp [h1, h2]
      | some tot => simp [h1, h2]

/-! ## Lemmas about the Flattener -/

theorem strData_append (a b : String) : (a ++ b).data = a.data ++ b.data := rfl

theorem pipeCount_append (a b : String) : pipeCount (a ++ b) = pipeCount a + pipeCount b := by
  unfold pipeCount
  rw [strData_append, List.countP_append]

theorem decDigit_ne_pipe (d : Nat) : (decDigit d == '|') = false := by
  unfold decDigit
  split <;> rfl

theorem natToDecAux_no_pipe (fuel : Nat) :
    ∀ n, (natToDecAux fuel n).countP (fun c => c == '|') = 0 := by
  induction fuel with
  | zero => intro n; rfl
  | succ f ih =>
    intro n
    unfold natToDecAux
    split
    · simp [List.countP_cons, decDigit_ne_pipe]
    · simp [List.countP_append, List.countP_cons, ih, decDigit_ne_pipe]

theorem formatWeight6_no_pipe (q : ℚ) : pipeCount (formatWeight6 q) = 0 := by
  unfold formatWeight6 pipeCount
  rw [strData_append, strData_append, strData_append]
  simp only [List.countP_append]
  have h1 : ∀ b : Bool, ((if b = true then "-" else "") : String).data.countP
      (fun c => c == '|') = 0 := by
    intro b; cases b <;> rfl
  have h2 : ∀ m, (String.mk (natToDec m)).data.countP (fun c => c == '|') = 0 := by
    intro m; exact natToDecAux_no_pipe (m + 1) m
  have h3 : ∀ k ds, ((List.replicate k '0' ++ ds).countP (fun c => c == '|'))
      = ds.countP (fun c => c == '|') := by
    intro k ds
    rw [List.countP_append, List.countP_eq_zero.mpr]
    · omega
    · intro c hc
      rw [List.eq_of_mem_replicate hc]
      decide
  split <;>
    simp [h2, h3, natToDecAux_no_pipe, List.countP_cons]

theorem pipeCount_joinPipe (L : List String) (h : ∀ s ∈ L, pipeCount s = 0) :
    pipeCount (joinPipe L) = L.length - 1 := by
  induction L with
  | nil => rfl
  | cons s rest ih =>
    cases rest with
    | nil => simpa using h s (List.mem_cons_self _ _)
    | cons t ts =>
      have hs := h s (List.mem_cons_self _ _)
      have hrest := ih (fun x hx => h x (List.mem_cons_of_mem _ hx))
      show pipeCount (s ++ "|" ++ joinPipe (t :: ts)) = (t :: ts).length + 1 - 1
      rw [pipeCount_append, pipeCount_append, hs, hrest]
      have hp : pipeCount "|" = 1 := rfl
      rw [hp]
      simp
      omega

theorem pipeSplitCount_tokensStr (item : FlatInput)
    (hne : item.attention_weights ≠ [])
    (hnp : ∀ wt ∈ item.attention_weights, pipeCount wt.token = 0) :
    pipeSplitCount (tokensStr item) = item.attention_weights.length := by
  unfold tokensStr pipeSplitCount
  rw [pipeCount_append, pipeCount_append]
  rw [pipeCount_joinPipe]
  · have hp : pipeCount "|" = 1 := rfl
    rw [hp]
    have hlen : item.attention_weights.length ≠ 0 := by
      simpa [List.length_eq_zero] using hne
    simp only [List.length_map]
    omega
  · intro s hs
    obtain ⟨wt, hwt, rfl⟩ := List.mem_map.mp hs
    exact hnp wt hwt

theorem pipeSplitCount_weightsStr (item : FlatInput)
    (hne : item.attention_weights ≠ []) :
    pipeSplitCount (weightsStr item) = item.attention_weights.length := by
  unfold weightsStr pipeSplitCount
  rw [pipeCount_append, pipeCount_append]
  rw [pipeCount_joinPipe]
  · have hp : pipeCount "|" = 1 := rfl
    rw [hp]
    have hlen : item.attention_weights.length ≠ 0 := by
      simpa [List.length_eq_zero] using hne
    simp only [List.length_map]
    omega
  · intro s hs
    obtain ⟨wt, hwt, rfl⟩ := List.mem_map.mp hs
    exact formatWeight6_no_pipe wt.weight

def c2item : FlatInput := ⟨1, "Q", "A", 3, [⟨"a", mkRat 1 10⟩]⟩

/-- C2 counterexample: an annotated record whose `attention_weights` list has
one entry but whose declared `token_count` is 3 (the Annotator performs no
count validation, so such records reach the Flattener) yields an emitted row
whose tokens and weights fields split into 1 segment each, not 3. -/
theorem flattener_count_counterexample :
    convert_to_csv [c2item] false = "1,Q,A,|a|,|0.100000|,3\x0d\n" ∧
    pipeSplitCount (tokensStr c2item) = 1 ∧
    pipeSplitCount (weightsStr c2item) = 1 ∧
    c2item.token_count = 3 ∧ (1 : Int) ≠ 3 :=
  ⟨rfl, rfl, rfl, rfl, by decide⟩

/-- C2 (amended): for every row the Flattener emits from a record with a
non-empty weight list whose token texts contain no `|`, the delimiter-split
segment counts of the tokens field and of the weights field are equal — both
are the number of `attention_weights` entries — and they equal the row's
declared `token_count` exactly when that number equals `token_count`. -/
theorem flattener_count_invariant (item : FlatInput)
    (hne : item.attention_weights ≠ [])
    (hnp : ∀ wt ∈ item.attention_weights, pipeCount wt.token = 0) :
    pipeSplitCount (tokensStr item) = item.attention_weights.length ∧
    pipeSplitCount (weightsStr item) = item.attention_weights.length ∧
    ((pipeSplitCount (tokensStr item) : Int) = item.token_count ↔
      (item.attention_weights.length : Int) = item.token_count) := by
  have ht := pipeSplitCount_tokensStr item hne hnp
  have hw := pipeSplitCount_weightsStr item hne
  exact ⟨ht, hw, by rw [ht]⟩

/-- Witness for `flattener_count_invariant` at a well-formed concrete record. -/
theorem flattener_count_invariant_witness :
    (([⟨"a", mkRat 1 10⟩, ⟨"b", mkRat 3 10⟩, ⟨"c", mkRat 6 10⟩] : List WeightedToken) ≠ []) ∧
    (∀ wt ∈ ([⟨"a", mkRat 1 10⟩, ⟨"b", mkRat 3 10⟩, ⟨"c", mkRat 6 10⟩] : List WeightedToken),
      pipeCount wt.token = 0) ∧
    (pipeSplitCount (tokensStr ⟨1, "Q", "A", 3,
        [⟨"a", mkRat 1 10⟩, ⟨"b", mkRat 3 10⟩, ⟨"c", mkRat 6 10⟩]⟩) = 3 ∧
      pipeSplitCount (weightsStr ⟨1, "Q", "A", 3,
        [⟨"a", mkRat 1 10⟩, ⟨"b", mkRat 3 10⟩, ⟨"c", mkRat 6 10⟩]⟩) = 3 ∧
      ((pipeSplitCount (tokensStr ⟨1, "Q", "A", 3,
          [⟨"a", mkRat 1 10⟩, ⟨"b", mkRat 3 10⟩, ⟨"c", mkRat 6 10⟩]⟩) : Int) = 3 ↔
        ((3 : Nat) : Int) = 3)) :=
  ⟨by decide, by decide,
    flattener_count_invariant ⟨1, "Q", "A", 3,
      [⟨"a", mkRat 1 10⟩, ⟨"b", mkRat 3 10⟩, ⟨"c", mkRat 6 10⟩]⟩ (by decide) (by decide)⟩

/-! ## Lemmas about the Selector -/

theorem contains_iff_mem {l : List Int} {a : Int} : l.contains a = true ↔ a ∈ l :=
  ⟨fun h => List.elem_iff.mp h, fun h => List.elem_iff.mpr h⟩

theorem posIn_inj {tids : List Int} (hn : tids.Nodup) :
    ∀ {a b : Int}, a ∈ tids → b ∈ tids → posIn tids a = posIn tids b → a = b := by
  induction tids with
  | nil => intro a b ha _ _; exact absurd ha (List.not_mem_nil a)
  | cons t ts ih =>
    intro a b ha hb hab
    have hcons := List.nodup_cons.mp hn
    by_cases hat : a = t <;> by_cases hbt : b = t
    · exact hat.trans hbt.symm
    · simp [posIn, hat, hbt] at hab
    · simp [posIn, hat, hbt] at hab
    · simp only [posIn, if_neg hat, if_neg hbt, Nat.add_left_inj] at hab
      have ha' : a ∈ ts := (List.mem_cons.mp ha).resolve_left hat
      have hb' : b ∈ ts := (List.mem_cons.mp hb).resolve_left hbt
      exact ih hcons.2 ha' hb' hab

theorem posIn_pairwise (tids : List Int) (hn : tids.Nodup) :
    tids.Pairwise (fun a b => posIn tids a < posIn tids b) := by
  induction tids with
  | nil => exact List.Pairwise.nil
  | cons t ts ih =>
    have hcons := List.nodup_cons.mp hn
    refine List.Pairwise.cons ?_ ?_
    · intro b hb
      have hbt : b ≠ t := fun h => hcons.1 (h ▸ hb)
      simp [posIn, hbt]
    · refine (ih hcons.2).imp_of_mem ?_
      intro a b ha hb hab
      have hat : a ≠ t := fun h => hcons.1 (h ▸ ha)
      have hbt : b ≠ t := fun h => hcons.1 (h ▸ hb)
      simp only [posIn, if_neg hat, if_neg hbt]
      omega

theorem insertOn_perm (key : SrcRow → Nat) (r : SrcRow) :
    ∀ l : List SrcRow, List.Perm (insertOn key r l) (r :: l) := by
  intro l
  induction l with
  | nil => exact List.Perm.refl _
  | cons x xs ih =>
    unfold insertOn
    split
    · exact (ih.cons x).trans (List.Perm.swap r x xs)
    · exact List.Perm.refl _

theorem sortOn_perm (key : SrcRow → Nat) :
    ∀ l : List SrcRow, List.Perm (sortOn key l) l := by
  intro l
  induction l with
  | nil => exact List.Perm.refl _
  | cons x xs ih => exact (insertOn_perm key x (sortOn key xs)).trans (ih.cons x)

theorem insertOn_sorted (key : SrcRow → Nat) (r : SrcRow) (l : List SrcRow)
    (h : l.Pairwise (fun a b => key a ≤ key b)) :
    (insertOn key r l).Pairwise (fun a b => key a ≤ key b) := by
  induction l with
  | nil => simp [insertOn]
  | cons x xs ih =>
    obtain ⟨hx, hxs⟩ := List.pairwise_cons.mp h
    unfold insertOn
    split
    · refine List.pairwise_cons.mpr ⟨?_, ih hxs⟩
      intro b hb
      have hmem := (insertOn_perm key r xs).mem_iff.mp hb
      rcases List.mem_cons.mp hmem with rfl | hb'
      · assumption
      · exact hx b hb'
    · refine List.pairwise_cons.mpr ⟨?_, h⟩
      intro b hb
      rcases List.mem_cons.mp hb with rfl | hb'
      · omega
      · have := hx b hb'; omega

theorem sortOn_sorted (key : SrcRow → Nat) :
    ∀ l : List SrcRow, (sortOn key l).Pairwise (fun a b => key a ≤ key b) := by
  intro l
  induction l with
  | nil => exact List.Pairwise.nil
  | cons x xs ih => exact insertOn_sorted key x (sortOn key xs) ih

/-- The ids of the Selector's filtered-and-reordered rows are the requested ids
that occur in the source, in request order (unique-identifier data model). -/
theorem extract_select_ids (rows : List SrcRow) (tids : List Int)
    (htn : tids.Nodup) (hsn : (rows.map (fun r => r.data_id)).Nodup) :
    (extract_select rows tids).map (fun r => r.data_id)
      = tids.filter (fun id => (rows.map (fun r => r.data_id)).contains id) := by
  unfold extract_select filterByIds
  set key : SrcRow → Nat := fun r => posIn tids r.data_id with hkey
  set F : List SrcRow := rows.filter (fun r => tids.contains r.data_id) with hF
  have hFsub : List.Sublist F rows := List.filter_sublist rows
  have hFids_nodup : (F.map (fun r => r.data_id)).Nodup :=
    List.Nodup.sublist (hFsub.map _) hsn
  have hFmem_tids : ∀ r ∈ F, r.data_id ∈ tids := by
    intro r hr
    exact contains_iff_mem.mp (List.mem_filter.mp hr).2
  have htarget_sorted : (tids.filter
      (fun id => (rows.map (fun r => r.data_id)).contains id)).Pairwise
      (fun a b => posIn tids a < posIn tids b) :=
    List.Pairwise.sublist (List.filter_sublist tids) (posIn_pairwise tids htn)
  have hA_perm : List.Perm (sortOn key F) F := sortOn_perm key F
  have hA_ids_perm : List.Perm ((sortOn key F).map (fun r => r.data_id))
      (F.map (fun r => r.data_id)) := hA_perm.map _
  have hA_ids_nodup : ((sortOn key F).map (fun r => r.data_id)).Nodup :=
    hA_ids_perm.nodup_iff.mpr hFids_nodup
  have hA_mem_tids : ∀ r ∈ sortOn key F, r.data_id ∈ tids :=
    fun r hr => hFmem_tids r (hA_perm.mem_iff.mp hr)
  have hA_le : (sortOn key F).Pairwise (fun a b => key a ≤ key b) := sortOn_sorted key F
  have hA_ne : (sortOn key F).Pairwise (fun a b => a.data_id ≠ b.data_id) :=
    List.pairwise_map.mp hA_ids_nodup
  have hA_strict : (sortOn key F).Pairwise (fun a b => key a < key b) := by
    refine (hA_le.and hA_ne).imp_of_mem ?_
    intro a b ha hb hab
    have hk : key a ≠ key b :=
      fun hkk => hab.2 (posIn_inj htn (hA_mem_tids a ha) (hA_mem_tids b hb) hkk)
    have := hab.1
    omega
  have hA_ids_strict : ((sortOn key F).map (fun r => r.data_id)).Pairwise
      (fun a b => posIn tids a < posIn tids b) := List.pairwise_map.mpr hA_strict
  have hids_perm : List.Perm ((sortOn key F).map (fun r => r.data_id))
      (tids.filter (fun id => (rows.map (fun r => r.data_id)).contains id)) := by
    refine hA_ids_perm.trans ?_
    apply List.perm_of_nodup_nodup_toFinset_eq hFids_nodup (htn.filter _)
    ext a
    simp only [List.mem_toFinset, List.mem_filter, List.mem_map]
    constructor
    · rintro ⟨r, hrF, rfl⟩
      exact ⟨hFmem_tids r hrF,
        contains_iff_mem.mpr (List.mem_map_of_mem _ (List.mem_of_mem_filter hrF))⟩
    · rintro ⟨hat, har⟩
      obtain ⟨r, hr, hra⟩ := List.mem_map.mp (contains_iff_mem.mp har)
      exact ⟨r, List.mem_filter.mpr ⟨hr, by rw [hra]; exact contains_iff_mem.mpr hat⟩, hra⟩
  haveI : IsAntisymm Int (fun a b => posIn tids a < posIn tids b) :=
    ⟨fun a b h1 h2 => by omega⟩
  exact List.eq_of_perm_of_sorted hids_perm hA_ids_strict htarget_sorted

theorem bool_eq_of_iff {a b : Bool} (h : a = true ↔ b = true) : a = b := by
  cases a <;> cases b <;> simp_all

theorem length_filter_bool_split (l : List Int) (p : Int → Bool) :
    (l.filter p).length + (l.filter (fun a => !(p a))).length = l.length := by
  induction l with
  | nil => rfl
  | cons a as ih => cases hp : p a <;> simp [List.filter_cons, hp] <;> omega

/-- C3: for any duplicate-free, non-empty ordered identifier list supplied to
the Selector, over a source whose identifiers are unique (the data model's
`id: integer (unique)`), the output record sequence's identifiers equal the
requested list filtered to the identifiers present in the source, in the
requested order — never source order. -/
theorem selector_ordering (df : Frame) (tids : List Int)
    (hcols : missingColumns df.columns = [])
    (hne : tids ≠ []) (htn : tids.Nodup)
    (hsn : (df.rows.map (fun r => r.data_id)).Nodup) :
    (extract_csv_data df (some tids)).output = some (extract_select df.rows tids) ∧
    (extract_select df.rows tids).map (fun r => r.data_id)
      = tids.filter (fun id => (df.rows.map (fun r => r.data_id)).contains id) := by
  constructor
  · unfold extract_csv_data
    rw [if_neg (by simp [hcols])]
    obtain ⟨t, ts, rfl⟩ := List.exists_cons_of_ne_nil hne
    simp [htn]
  · exact extract_select_ids df.rows tids htn hsn

def c3frame : Frame :=
  ⟨required_columns,
    [⟨10, "q1", "a1", "|x|", 1⟩, ⟨20, "q2", "a2", "|y|", 1⟩, ⟨30, "q3", "a3", "|z|", 1⟩]⟩

def c3ids : List Int := [30, 10, 99]

/-- Witness for `selector_ordering`: source order 10,20,30; request [30,10,99];
the output identifiers are [30,10] — request order, not source order. -/
theorem selector_ordering_witness :
    missingColumns c3frame.columns = [] ∧ c3ids ≠ [] ∧ c3ids.Nodup ∧
    (c3frame.rows.map (fun r => r.data_id)).Nodup ∧
    ((extract_csv_data c3frame (some c3ids)).output
        = some (extract_select c3frame.rows c3ids) ∧
      (extract_select c3frame.rows c3ids).map (fun r => r.data_id)
        = c3ids.filter (fun id => (c3frame.rows.map (fun r => r.data_id)).contains id)) ∧
    (extract_select c3frame.rows c3ids).map (fun r => r.data_id) = [30, 10] :=
  ⟨by decide, by decide, by decide, by decide,
    selector_ordering c3frame c3ids (by decide) (by decide) (by decide) (by decide),
    by decide⟩

/-- C6 (amended): if any required column is absent from the source table, the
Selector reports a diagnostic naming the missing columns and writes no output
file; the raised `ValueError` is caught by the invocation's own handler, so
the invocation terminates normally (exit status 0), not with a
non-zero-equivalent termination. -/
theorem selector_missing_columns (df : Frame) (target : Option (List Int))
    (h : missingColumns df.columns ≠ []) :
    extract_csv_data df target
      = { output := none, warnedMissingIds := [],
          errorMsg := some (missingColsMsg (missingColumns df.columns)),
          uncaughtExit := false } := by
  unfold extract_csv_data
  rw [if_pos h]

def c6wframe : Frame := ⟨["data_id"], []⟩

/-- Witness for `selector_missing_columns`. -/
theorem selector_missing_columns_witness :
    missingColumns c6wframe.columns ≠ [] ∧
    extract_csv_data c6wframe none
      = { output := none, warnedMissingIds := [],
          errorMsg := some (missingColsMsg (missingColumns c6wframe.columns)),
          uncaughtExit := false } :=
  ⟨by decide, selector_missing_columns c6wframe none (by decide)⟩

def c6frame : Frame := ⟨["data_id", "tokens"], [⟨1, "q", "a", "|x|", 1⟩]⟩

/-- C6 counterexample: with `question`, `answer`, `token_count` absent, the
Selector prints an error naming them and writes nothing — but the invocation
terminates normally (the exception is caught; exit status 0), contradicting
the claimed non-zero-equivalent termination. -/
theorem selector_missing_columns_counterexample :
    missingColumns c6frame.columns = ["question", "answer", "token_count"] ∧
    (extract_csv_data c6frame none).output = none ∧
    (extract_csv_data c6frame none).errorMsg
      = some (missingColsMsg ["question", "answer", "token_count"]) ∧
    (extract_csv_data c6frame none).uncaughtExit = false :=
  ⟨by decide, by decide, by decide, by decide⟩

/-- C8: requested identifiers absent from the source are exactly the warned
list, the output omits them, processing continues (output is produced), and
the output is shorter than the request list by exactly the number of absent
identifiers. -/
theorem selector_missing_id_warning (df : Frame) (tids : List Int)
    (hcols : missingColumns df.columns = [])
    (hne : tids ≠ []) (htn : tids.Nodup)
    (hsn : (df.rows.map (fun r => r.data_id)).Nodup) :
    (extract_csv_data df (some tids)).output = some (extract_select df.rows tids) ∧
    (extract_csv_data df (some tids)).warnedMissingIds
      = tids.filter (fun id => !((df.rows.map (fun r => r.data_id)).contains id)) ∧
    (extract_select df.rows tids).length
      + (tids.filter (fun id => !((df.rows.map (fun r => r.data_id)).contains id))).length
      = tids.length ∧
    ∀ id ∈ tids.filter (fun id => !((df.rows.map (fun r => r.data_id)).contains id)),
      ¬ id ∈ (extract_select df.rows tids).map (fun r => r.data_id) := by
  have hids := extract_select_ids df.rows tids htn hsn
  have hmemiff : ∀ id ∈ tids,
      (((filterByIds df.rows tids).map (fun r => r.data_id)).contains id
        = ((df.rows.map (fun r => r.data_id)).contains id)) := by
    intro id hid
    apply bool_eq_of_iff
    rw [contains_iff_mem, contains_iff_mem]
    constructor
    · intro hm
      exact (List.Sublist.map (fun r => r.data_id)
        (List.filter_sublist df.rows)).mem hm
    · intro hm
      obtain ⟨r, hr, hra⟩ := List.mem_map.mp hm
      exact List.mem_map.mpr
        ⟨r, List.mem_filter.mpr ⟨hr, by rw [hra]; exact contains_iff_mem.mpr hid⟩, hra⟩
  have hwarn : missing_ids df.rows tids
      = tids.filter (fun id => !((df.rows.map (fun r => r.data_id)).contains id)) := by
    unfold missing_ids
    apply List.filter_congr
    intro id hid
    rw [hmemiff id hid]
  refine ⟨?_, ?_, ?_, ?_⟩
  · unfold extract_csv_data
    rw [if_neg (by simp [hcols])]
    obtain ⟨t, ts, rfl⟩ := List.exists_cons_of_ne_nil hne
    simp [htn]
  · unfold extract_csv_data
    rw [if_neg (by simp [hcols])]
    obtain ⟨t, ts, rfl⟩ := List.exists_cons_of_ne_nil hne
    simp only [if_pos htn]
    exact hwarn
  · have hlen : (extract_select df.rows tids).length
        = (tids.filter (fun id => (df.rows.map (fun r => r.data_id)).contains id)).length := by
      rw [← List.length_map (extract_select df.rows tids) (fun r => r.data_id), hids]
    rw [hlen]
    exact length_filter_bool_split tids _
  · intro id hidm hmem
    rw [hids] at hmem
    have h1 := (List.mem_filter.mp hidm).2
    have h2 := (List.mem_filter.mp hmem).2
    rw [h2] at h1
    exact Bool.noConfusion h1

def c8frame : Frame :=
  ⟨required_columns, [⟨10, "q1", "a1", "|x|", 1⟩, ⟨20, "q2", "a2", "|y|", 1⟩]⟩

def c8ids : List Int := [20, 9999]

/-- Witness for `selector_missing_id_warning`: requesting `[20, 9999]` over a
source holding 10 and 20 warns about 9999 and outputs one record. -/
theorem selector_missing_id_warning_witness :
    missingColumns c8frame.columns = [] ∧ c8ids ≠ [] ∧ c8ids.Nodup ∧
    (c8frame.rows.map (fun r => r.data_id)).Nodup ∧
    ((extract_csv_data c8frame (some c8ids)).output
        = some (extract_select c8frame.rows c8ids) ∧
      (extract_csv_data c8frame (some c8ids)).warnedMissingIds
        = c8ids.filter (fun id => !((c8frame.rows.map (fun r => r.data_id)).contains id)) ∧
      (extract_select c8frame.rows c8ids).length
        + (c8ids.filter
            (fun id => !((c8frame.rows.map (fun r => r.data_id)).contains id))).length
        = c8ids.length ∧
      ∀ id ∈ c8ids.filter
          (fun id => !((c8frame.rows.map (fun r => r.data_id)).contains id)),
        ¬ id ∈ (extract_select c8frame.rows c8ids).map (fun r => r.data_id)) ∧
    (extract_csv_data c8frame (some c8ids)).warnedMissingIds = [9999] ∧
    (extract_select c8frame.rows c8ids).length = 1 :=
  ⟨by decide, by decide, by decide, by decide,
    selector_missing_id_warning c8frame c8ids (by decide) (by decide) (by decide) (by decide),
    by decide, by decide⟩

/-! ## Lemmas about the fence stripping -/

theorem dropWhile_eq_self_of_head {p : Char → Bool} {l : List Char} {c : Char}
    (h : l.head? = some c) (hc : p c = false) : l.dropWhile p = l := by
  cases l with
  | nil => cases h
  | cons x xs =>
    have hx : x = c := by simpa using h
    subst hx
    simp [List.dropWhile_cons, hc]

theorem pythonStrip_eq_self {s : String} {c d : Char}
    (h1 : s.data.head? = some c) (hc : isPySpace c = false)
    (h2 : s.data.getLast? = some d) (hd : isPySpace d = false) : pythonStrip s = s := by
  unfold pythonStrip
  rw [dropWhile_eq_self_of_head h1 hc]
  rw [dropWhile_eq_self_of_head (by rw [List.head?_reverse]; exact h2) hd]
  rw [List.reverse_reverse]

theorem idxOfFirst_head {c : Char} {l : List Char} (h : l.head? = some c) :
    idxOfFirst c l = some 0 := by
  cases l with
  | nil => cases h
  | cons x xs =>
    have hx : x = c := by simpa using h
    subst hx
    simp [idxOfFirst]

theorem idxOfFirst_append_of_none {c : Char} {a : List Char}
    (h : ∀ x ∈ a, (x == c) = false) {b : List Char} {n : Nat}
    (hb : idxOfFirst c b = some n) : idxOfFirst c (a ++ b) = some (a.length + n) := by
  induction a with
  | nil => simpa using hb
  | cons x xs ih =>
    have hx := h x (List.mem_cons_self _ _)
    have hrec := ih (fun y hy => h y (List.mem_cons_of_mem _ hy))
    simp [idxOfFirst, hx, hrec]
    omega

theorem braceSlice_wrap (s : String) (h1 : s.data.head? = some '\x7b')
    (h2 : s.data.getLast? = some '\x7d') :
    braceSlice ("```json\n" ++ s ++ "\n```") = s := by
  have hdata : ("```json\n" ++ s ++ "\n```").data
      = "```json\n".data ++ (s.data ++ "\n```".data) := by
    rw [strData_append, strData_append, List.append_assoc]
  have hne : s.data ≠ [] := by
    intro hnil; rw [hnil] at h1; cases h1
  have hfirst : idxOfFirst '\x7b' (("```json\n" ++ s ++ "\n```").data) = some 8 := by
    rw [hdata]
    have hb : idxOfFirst '\x7b' (s.data ++ "\n```".data) = some 0 := by
      apply idxOfFirst_head
      cases hsd : s.data with
      | nil => exact absurd hsd hne
      | cons x xs =>
        rw [hsd] at h1
        simpa using h1
    have := idxOfFirst_append_of_none (a := "```json\n".data) (by decide) hb
    simpa using this
  have hrev : (("```json\n" ++ s ++ "\n```").data).reverse
      = "\n```".data.reverse ++ (s.data.reverse ++ "```json\n".data.reverse) := by
    rw [hdata]
    simp [List.reverse_append]
  have hlast : idxOfLast '\x7d' (("```json\n" ++ s ++ "\n```").data)
      = some (7 + s.data.length) := by
    unfold idxOfLast
    have hbrev : idxOfFirst '\x7d' (s.data.reverse ++ "```json\n".data.reverse) = some 0 := by
      apply idxOfFirst_head
      cases hsr : s.data.reverse with
      | nil => exact absurd (by simpa using congrArg List.reverse hsr) hne
      | cons x xs =>
        have : s.data.reverse.head? = some '\x7d' := by
          rw [List.head?_reverse]; exact h2
        rw [hsr] at this
        simpa [hsr] using this
    have h4 : idxOfFirst '\x7d' ((("```json\n" ++ s ++ "\n```").data).reverse) = some 4 := by
      rw [hrev]
      have := idxOfFirst_append_of_none (a := "\n```".data.reverse) (by decide) hbrev
      simpa using this
    rw [h4]
    have hlen : ("```json\n" ++ s ++ "\n```").data.length = 12 + s.data.length := by
      rw [hdata]; simp; omega
    rw [hlen]
    simp only [Option.map_some']
    congr 1
    omega
  simp only [braceSlice, hfirst, hlast]
  rw [hdata]
  rw [List.drop_left' (by decide)]
  rw [show 7 + s.data.length + 1 - 8 = s.data.length from by omega]
  rw [List.take_left]

theorem strStartsWith_wrap (s : String) :
    strStartsWith ("```json\n" ++ s ++ "\n```") fenceTag = true := rfl

theorem strStartsWith_brace {s : String} (h1 : s.data.head? = some '\x7b') :
    strStartsWith s fenceTag = false := by
  unfold strStartsWith
  cases hs : s.data with
  | nil => rw [hs] at h1; cases h1
  | cons x xs =>
    rw [hs] at h1
    have hx : x = '\x7b' := by simpa using h1
    subst hx
    rfl

theorem head_not_pyspace_of_backtick :
    ∀ (s : String), ("```json\n" ++ s ++ "\n```").data.head? = some '`' := by
  intro s
  rfl

theorem last_not_pyspace_of_backtick (s : String) :
    ("```json\n" ++ s ++ "\n```").data.getLast? = some '`' := by
  rw [← List.head?_reverse]
  rw [strData_append, strData_append, List.reverse_append, List.reverse_append]
  rfl

/-- C4 (amended): for an oracle response wrapped in a fenced-code block that
opens with `` ```json ``, the Annotator takes the substring from the first
`\x7b` to the last `\x7d` before structured parsing, so the wrapped response is
accepted exactly when the unwrapped JSON is, yielding the same annotated
record apart from the retained raw response text. -/
theorem annotator_fence_strip (s : String) (item : QuizItem) (model : String)
    (h1 : s.data.head? = some '\x7b') (h2 : s.data.getLast? = some '\x7d') :
    jsonContentOf (pythonStrip ("```json\n" ++ s ++ "\n```")) = s ∧
    (calculate_attention_weights ("```json\n" ++ s ++ "\n```") item model).map coreOf
      = (calculate_attention_weights s item model).map coreOf := by
  have hwsw : pythonStrip ("```json\n" ++ s ++ "\n```") = "```json\n" ++ s ++ "\n```" :=
    pythonStrip_eq_self (head_not_pyspace_of_backtick s) (by decide)
      (last_not_pyspace_of_backtick s) (by decide)
  have hwss : pythonStrip s = s := pythonStrip_eq_self h1 (by decide) h2 (by decide)
  have hcontent : jsonContentOf (pythonStrip ("```json\n" ++ s ++ "\n```")) = s := by
    rw [hwsw]
    unfold jsonContentOf
    rw [if_pos (strStartsWith_wrap s)]
    exact braceSlice_wrap s h1 h2
  have hcontent2 : jsonContentOf (pythonStrip s) = s := by
    rw [hwss]
    unfold jsonContentOf
    rw [if_neg (by rw [strStartsWith_brace h1]; exact Bool.false_ne_true)]
  refine ⟨hcontent, ?_⟩
  simp only [calculate_attention_weights, hcontent, hcontent2]
  cases hj : json_loads s with
  | none => rfl
  | some wd =>
    cases hg1 : jsonGet wd "token_weights" with
    | none => simp [hg1]
    | some tw =>
      cases hg2 : jsonGet wd "total_weight" with
      | none => simp [hg1, hg2]
      | some tot => simp [hg1, hg2, coreOf]

def c4json : String := "\x7b\"token_weights\": [], \"total_weight\": 1.0\x7d"

/-- Witness for `annotator_fence_strip` at a concrete JSON object. -/
theorem annotator_fence_strip_witness :
    c4json.data.head? = some '\x7b' ∧ c4json.data.getLast? = some '\x7d' ∧
    (jsonContentOf (pythonStrip ("```json\n" ++ c4json ++ "\n```")) = c4json ∧
      (calculate_attention_weights ("```json\n" ++ c4json ++ "\n```")
          ⟨1, "Q", "A", "|a|", 1⟩ "gpt-4.1").map coreOf
        = (calculate_attention_weights c4json ⟨1, "Q", "A", "|a|", 1⟩ "gpt-4.1").map coreOf) ∧
    (calculate_attention_weights ("```json\n" ++ c4json ++ "\n```")
        ⟨1, "Q", "A", "|a|", 1⟩ "gpt-4.1").isSome = true :=
  ⟨by decide, by decide,
    annotator_fence_strip c4json ⟨1, "Q", "A", "|a|", 1⟩ "gpt-4.1" (by decide) (by decide),
    by decide⟩

def c4plain : String := "```\n\x7b\"token_weights\": [], \"total_weight\": 1.0\x7d\n```"

/-- C4 counterexample: a fenced-code block that does not open with `` ```json ``
(a bare `` ``` `` fence) is not stripped — `startswith('```json')` is false, the
whole text is fed to the JSON parser and fails — so the wrapped response is
rejected while the unwrapped JSON is accepted, contradicting the claim for
arbitrary fenced-code wrappers. -/
theorem annotator_fence_strip_counterexample :
    c4plain = "```\n" ++ c4json ++ "\n```" ∧
    strStartsWith c4plain fenceTag = false ∧
    (calculate_attention_weights c4json ⟨1, "Q", "A", "|a|", 1⟩ "gpt-4.1").isSome = true ∧
    (calculate_attention_weights c4plain ⟨1, "Q", "A", "|a|", 1⟩ "gpt-4.1").isSome = false :=
  ⟨rfl, by decide, by decide, by decide⟩
